import Mathlib

/-!
Verification of the prediction core of the CKD hospital-risk calculator
(src/app.py): configuration loading (load_cfg), the logistic predictor
(predict), the UI feature encoding, and the eligibility gate.

Numbers are modelled by rationals (the exact values the finitely many
arithmetic operations of the source produce on its small inputs), and the
transcendental sigmoid of line 35 by the real function x up to 1 / (1 + exp (-x)).
Where a claim is about the finite range of the double-precision exponential
used by math.exp, that finite range is modelled explicitly (expMaxArg below).
Of the exact sigmoid only the bounds that survive IEEE-754 rounding are
asserted of the program: the exact value lies strictly inside (0, 1) and is
strictly monotone in eta, but in double arithmetic 1.0 + exp(-eta) rounds to
exactly 1.0 once eta exceeds about 53 times the log of 2, so the program can
return exactly 1.0 and tie for distinct eta; the claims therefore state the
upper bound and the monotonicity non-strictly.
-/

/-- Values of a parsed JSON document, as produced by json.loads in load_cfg:
null, booleans, numbers (modelled exactly as rationals), strings, arrays and
objects (ordered key-value lists; Python dicts have pairwise distinct keys). -/
inductive JVal where
  | null : JVal
  | bool : Bool → JVal
  | num : ℚ → JVal
  | str : String → JVal
  | arr : List JVal → JVal
  | obj : List (String × JVal) → JVal

/-- Exceptions the translated Python fragments can raise: KeyError from a
dict subscript with a missing key, TypeError and ValueError from the float
coercion, and OverflowError from math.exp on an argument beyond the double
range. -/
inductive PyError where
  | keyError : String → PyError
  | typeError : PyError
  | valueError : PyError
  | overflowError : PyError
deriving DecidableEq, Repr

instance {ε α : Type} [DecidableEq ε] [DecidableEq α] : DecidableEq (Except ε α) := by
  intro x y
  match x, y with
  | .ok a, .ok b =>
    exact if h : a = b then .isTrue (h ▸ rfl) else .isFalse (fun hh => h (by cases hh; rfl))
  | .error e, .error f =>
    exact if h : e = f then .isTrue (h ▸ rfl) else .isFalse (fun hh => h (by cases hh; rfl))
  | .ok _, .error _ => exact .isFalse (fun hh => Except.noConfusion hh)
  | .error _, .ok _ => exact .isFalse (fun hh => Except.noConfusion hh)

/-- Digits of a decimal literal read as a natural number; none when the
character list is empty or holds a non-digit. -/
def parseNatDigits (cs : List Char) : Option ℕ :=
  if cs = [] ∨ cs.any (fun c => ¬ c.isDigit) then none
  else some (cs.foldl (fun n c => 10 * n + (c.toNat - 48)) 0)

/-- Optional leading sign of a numeric literal: the sign as a rational unit
together with the remaining characters. -/
def parseSign : List Char → ℚ × List Char
  | '+' :: rest => (1, rest)
  | '-' :: rest => (-1, rest)
  | cs => (1, cs)

/-- Leading and trailing whitespace of a character list removed, as Python
float() strips whitespace from a numeric string. -/
def stripSpaces (cs : List Char) : List Char :=
  ((cs.dropWhile Char.isWhitespace).reverse.dropWhile Char.isWhitespace).reverse

/-- Split a character list at the first character satisfying p: the part
before it, and (when found) the part after it. -/
def splitAtChar (p : Char → Bool) (cs : List Char) : List Char × Option (List Char) :=
  match cs.span (fun c => ¬ p c) with
  | (pre, []) => (pre, none)
  | (pre, _ :: post) => (pre, some post)

/-- Python float() on a string: an optional sign, a decimal mantissa with an
optional fractional part (at least one digit overall), and an optional
decimal exponent. The model covers finite decimal literals; the special
literals inf, infinity and nan (which produce non-finite doubles) and digit
underscores are outside its scope. -/
def parseFloat (s : String) : Option ℚ :=
  let cs := stripSpaces s.toList
  let (sign, cs) := parseSign cs
  let (mant, expPart) := splitAtChar (fun c => c = 'e' ∨ c = 'E') cs
  let (intPart, fracPart) := splitAtChar (fun c => c = '.') mant
  let fracDigits := fracPart.getD []
  if intPart.all Char.isDigit ∧ fracDigits.all Char.isDigit ∧
      (intPart ≠ [] ∨ fracDigits ≠ []) then
    let ip : ℕ := (parseNatDigits intPart).getD 0
    let fp : ℕ := (parseNatDigits fracDigits).getD 0
    let base : ℚ := sign * ((ip : ℚ) + (fp : ℚ) / (10 : ℚ) ^ fracDigits.length)
    match expPart with
    | none => some base
    | some ec =>
      let (esign, ed) := parseSign ec
      match parseNatDigits ed with
      | none => none
      | some e =>
        if esign < 0 then some (base / (10 : ℚ) ^ e) else some (base * (10 : ℚ) ^ e)
  else none

/-- Python float() coercion applied to a JSON value, as in lines 32 to 34 of
src/app.py: numbers pass through, booleans become 0 or 1, numeric strings
are parsed (ValueError otherwise), and every other value (null, list, dict)
raises a TypeError. -/
def pyFloat : JVal → Except PyError ℚ
  | .num q => .ok q
  | .bool b => .ok (if b then 1 else 0)
  | .str s =>
    match parseFloat s with
    | some q => .ok q
    | none => .error .valueError
  | _ => .error .typeError

/-- Python dict subscript d[k] on a JSON value: the value stored at key k of
an object, KeyError when the key is absent, TypeError when the value is not
an object. -/
def jGet (j : JVal) (k : String) : Except PyError JVal :=
  match j with
  | .obj fields =>
    match fields.lookup k with
    | some v => .ok v
    | none => .error (.keyError k)
  | _ => .error .typeError

/-- Fields of a JSON object, raising a TypeError on any other value: used
where the source iterates spec["coeffs"] as a dict. -/
def jFields (j : JVal) : Except PyError (List (String × JVal)) :=
  match j with
  | .obj fields => .ok fields
  | _ => .error .typeError

/-- One term of the sum on lines 32 to 34 of src/app.py, for a key k of the
coefficient dict: float(coeffs.get(k, 0.0)) * float(X.get(k, 0.0)), each
get defaulting to the number 0.0, each float coercion able to raise. -/
def termOf (coeffs : List (String × JVal)) (X : List (String × JVal)) (k : String) :
    Except PyError ℚ := do
  let w ← pyFloat ((coeffs.lookup k).getD (JVal.num 0))
  let x ← pyFloat ((X.lookup k).getD (JVal.num 0))
  pure (w * x)

/-- The sum of lines 32 to 34 of src/app.py over the listed keys, evaluated
left to right, the first exception aborting the sum as in Python. -/
def sumTerms (coeffs : List (String × JVal)) (X : List (String × JVal)) :
    List String → Except PyError ℚ
  | [] => .ok 0
  | k :: ks => do
    let t ← termOf coeffs X k
    let rest ← sumTerms coeffs X ks
    pure (t + rest)

/-- Lines 31 to 34 of src/app.py: spec = cfg["outcomes"][outcome], then
eta = float(spec["intercept"]) + sum of float(spec["coeffs"].get(k, 0.0)) *
float(X.get(k, 0.0)) over the keys k of spec["coeffs"], in order, every
failing step raising the corresponding Python exception. -/
def predictEta (cfg : JVal) (outcome : String) (X : List (String × JVal)) :
    Except PyError ℚ := do
  let outcomes ← jGet cfg "outcomes"
  let spec ← jGet outcomes outcome
  let b0j ← jGet spec "intercept"
  let b0 ← pyFloat b0j
  let coeffsj ← jGet spec "coeffs"
  let coeffs ← jFields coeffsj
  let s ← sumTerms coeffs X (coeffs.map Prod.fst)
  pure (b0 + s)

/-- Largest argument on which the double-precision math.exp of line 35 stays
finite: the natural log of the largest finite double, about 709.782712893384.
CPython raises an OverflowError from math.exp beyond it. -/
def expMaxArg : ℚ := 709.782712893384

/-- Line 35 of src/app.py up to the overflow behaviour of math.exp(-eta):
the linear predictor eta when math.exp(-eta) is representable, and the
OverflowError CPython math.exp raises when -eta exceeds expMaxArg. -/
def predictExp (cfg : JVal) (outcome : String) (X : List (String × JVal)) :
    Except PyError ℚ := do
  let eta ← predictEta cfg outcome X
  if expMaxArg < -eta then .error .overflowError else pure eta

/-- The logistic sigmoid of line 35 of src/app.py in exact real arithmetic:
1.0 / (1.0 + math.exp(-eta)). -/
noncomputable def sigmoid (x : ℝ) : ℝ := 1 / (1 + Real.exp (-x))

/-- The full predict of lines 29 to 35 of src/app.py over a JSON config:
the sigmoid of the linear predictor, or the first Python exception raised
on the way (unknown outcome, malformed number, exp overflow). -/
noncomputable def predict (cfg : JVal) (outcome : String) (X : List (String × JVal)) :
    Except PyError ℝ :=
  (predictExp cfg outcome X).map (fun eta => sigmoid (eta : ℝ))

/-- The configuration resource of load_cfg as the predictor can observe it:
the file data/model_coeffs.json may be absent, may fail to decode as JSON,
or parses to a JSON value. The filesystem read itself is abstracted. -/
inductive Resource where
  | missing : Resource
  | unparsable : Resource
  | parsed : JVal → Resource

/-- How a run of load_cfg can fail: the st.error plus st.stop path for a
missing file (lines 20 to 22 of src/app.py), or the json.JSONDecodeError
json.loads raises on undecodable text (line 23). -/
inductive LoadError where
  | missingFile : LoadError
  | jsonDecodeError : LoadError
deriving DecidableEq, Repr

/-- Lines 17 to 23 of src/app.py: load_cfg halts when the file is missing,
propagates the decode error of json.loads on undecodable text, and otherwise
returns the parsed JSON value unchanged: no field of the parsed document is
validated at load time. -/
def load_cfg : Resource → Except LoadError JVal
  | .missing => .error .missingFile
  | .unparsable => .error .jsonDecodeError
  | .parsed j => .ok j

/-- A model specification of the data model: the intercept and the ordered
coefficient mapping from feature name to weight, numbers held exactly as
rationals (the validated image of one entry of cfg["outcomes"]). -/
structure ModelSpec where
  intercept : ℚ
  coeffs : List (String × ℚ)
deriving DecidableEq, Repr

/-- A coefficient table: the validated image of cfg["outcomes"], mapping
outcome names to model specifications. -/
abbrev CoefficientTable := List (String × ModelSpec)

/-- A feature vector: the mapping from feature name to numeric value that
the UI constructs and predict consumes. -/
abbrev FeatureVector := List (String × ℚ)

/-- The linear predictor of lines 32 to 34 of src/app.py on validated data:
intercept plus, for each key k of the coefficient mapping in order,
coeffs.get(k, 0.0) * X.get(k, 0.0), both lookups defaulting to 0. -/
def etaOf (spec : ModelSpec) (X : FeatureVector) : ℚ :=
  spec.intercept +
    (spec.coeffs.map (fun kv =>
      ((spec.coeffs.lookup kv.1).getD 0) * ((X.lookup kv.1).getD 0))).sum

/-- The JSON encoding of a validated model specification, as it sits inside
the configuration document. -/
def ModelSpec.toJVal (s : ModelSpec) : JVal :=
  .obj [("intercept", .num s.intercept),
        ("coeffs", .obj (s.coeffs.map (fun kv => (kv.1, JVal.num kv.2))))]

/-- The JSON encoding of a validated coefficient table: the configuration
document with its outcomes object. -/
def tableToJVal (t : CoefficientTable) : JVal :=
  .obj [("outcomes", .obj (t.map (fun kv => (kv.1, kv.2.toJVal))))]

/-- The JSON encoding of a feature vector, as predict receives it from the
UI. -/
def fvToJVal (X : FeatureVector) : List (String × JVal) :=
  X.map (fun kv => (kv.1, JVal.num kv.2))

/-- The month names of the admission-month selectbox on line 142 to 143 of
src/app.py: list(calendar.month_name)[1:], January through December. -/
def monthNames : List String :=
  ["January", "February", "March", "April", "May", "June",
   "July", "August", "September", "October", "November", "December"]

/-- One run of the form page of src/app.py as a function of what the user
selected: the eligibility answer (line 118), the form selections (lines 126
to 161) and whether the submit button was pressed (line 163). -/
structure UiInputs where
  primary_ckd : String
  sex : String
  age : ℕ
  admission_type : String
  month_name : String
  comorb_neoplasm : Bool
  comorb_blood : Bool
  comorb_endocrine : Bool
  comorb_circulatory : Bool
  comorb_respiratory : Bool
  comorb_digestive : Bool
  submitted : Bool

/-- The comorb dict of lines 158 to 161 of src/app.py: one 0-or-1 entry per
comorbidity checkbox, in the order of COMORB_LIST. -/
def comorbOf (inp : UiInputs) : FeatureVector :=
  [("comorb_neoplasm", if inp.comorb_neoplasm then 1 else 0),
   ("comorb_blood", if inp.comorb_blood then 1 else 0),
   ("comorb_endocrine", if inp.comorb_endocrine then 1 else 0),
   ("comorb_circulatory", if inp.comorb_circulatory then 1 else 0),
   ("comorb_respiratory", if inp.comorb_respiratory then 1 else 0),
   ("comorb_digestive", if inp.comorb_digestive then 1 else 0)]

/-- The admission month number of line 169 of src/app.py:
months.index(month_name) + 1. -/
def admissionMonthOf (inp : UiInputs) : ℕ :=
  monthNames.indexOf inp.month_name + 1

/-- The features dict of lines 170 to 176 of src/app.py: the UI-to-model
feature encoding, with the comorbidity flags merged in (their keys are
disjoint from the four fixed ones, so the merge adds them unchanged). -/
def featuresOf (inp : UiInputs) : FeatureVector :=
  [("female", if inp.sex = "Female" then 1 else 0),
   ("age_ge70", if 70 ≤ inp.age then 1 else 0),
   ("scheduled_admission", if inp.admission_type = "Scheduled" then 1 else 0),
   ("warm_month", if admissionMonthOf inp ∈ ([3, 4, 5, 6, 7, 8] : List ℕ) then 1 else 0)]
  ++ comorbOf inp

/-- The terminal halt of the form page: st.stop on line 123 of src/app.py
after the eligibility error message. -/
inductive Halt where
  | ineligible : Halt
deriving DecidableEq, Repr

/-- What a submitted form run produces on lines 169 to 194 of src/app.py:
the features dict, and the two predictions stored into the session results. -/
structure SubmitOutcome where
  features : FeatureVector
  death : Except PyError ℝ
  los : Except PyError ℝ

/-- Lines 114 to 196 of src/app.py, the form phase of a run: the eligibility
gate halts the script when the primary-diagnosis answer is not Yes, before
the form is rendered; otherwise a submitted form builds the features dict
and computes both predictions, and an unsubmitted one produces nothing. -/
noncomputable def runFormPhase (cfg : JVal) (inp : UiInputs) :
    Except Halt (Option SubmitOutcome) :=
  if inp.primary_ckd ≠ "Yes" then .error .ineligible
  else if inp.submitted then
    .ok (some
      { features := featuresOf inp
        death := predict cfg "death_in_hospital" (fvToJVal (featuresOf inp))
        los := predict cfg "prolonged_los" (fvToJVal (featuresOf inp)) })
  else .ok none

/-- The mutable objects reachable from a call of predict: the module-level
cfg dict and the caller's feature dict X. -/
structure Store where
  cfg : JVal
  X : List (String × JVal)

/-- The read of X.get(k, 0.0) on line 33 of src/app.py against the store:
a pure dict read, returning the store unchanged alongside the value. -/
def getXItem (s : Store) (k : String) : Store × JVal :=
  (s, (s.X.lookup k).getD (JVal.num 0))

/-- The sum of lines 32 to 34 of src/app.py with the store threaded through
every dict access, the first exception aborting the sum. -/
def sumTermsImp (coeffs : List (String × JVal)) : Store → List String →
    Store × Except PyError ℚ
  | s, [] => (s, .ok 0)
  | s, k :: ks =>
    match pyFloat ((coeffs.lookup k).getD (JVal.num 0)) with
    | .error e => (s, .error e)
    | .ok w =>
      match getXItem s k with
      | (s1, xj) =>
        match pyFloat xj with
        | .error e => (s1, .error e)
        | .ok x =>
          match sumTermsImp coeffs s1 ks with
          | (s2, .error e) => (s2, .error e)
          | (s2, .ok rest) => (s2, .ok (w * x + rest))

/-- Lines 29 to 35 of src/app.py with the store threaded through every
access to the cfg dict and the X dict: every operation of predict is a read,
and the pair returns the store the call ends with. -/
def predictImp (s : Store) (outcome : String) : Store × Except PyError ℚ :=
  match jGet s.cfg "outcomes" with
  | .error e => (s, .error e)
  | .ok outcomes =>
    match jGet outcomes outcome with
    | .error e => (s, .error e)
    | .ok spec =>
      match jGet spec "intercept" with
      | .error e => (s, .error e)
      | .ok b0j =>
        match pyFloat b0j with
        | .error e => (s, .error e)
        | .ok b0 =>
          match jGet spec "coeffs" with
          | .error e => (s, .error e)
          | .ok coeffsj =>
            match jFields coeffsj with
            | .error e => (s, .error e)
            | .ok coeffs =>
              match sumTermsImp coeffs s (coeffs.map Prod.fst) with
              | (s1, .error e) => (s1, .error e)
              | (s1, .ok total) =>
                if expMaxArg < -(b0 + total) then (s1, .error .overflowError)
                else (s1, .ok (b0 + total))

/-- The coefficient mapping with the weight stored at key k replaced by w,
every other entry untouched: the modified model of the monotonicity
property, which varies one weight holding the rest of the table fixed. -/
def setWeight (c : List (String × ℚ)) (k : String) (w : ℚ) : List (String × ℚ) :=
  c.map (fun kv => if kv.1 = k then (k, w) else kv)

/-- The coefficient mapping with the entry at key k removed: the model with
the k term omitted, against which a zero weight is compared. -/
def dropWeight (c : List (String × ℚ)) (k : String) : List (String × ℚ) :=
  c.filter (fun kv => kv.1 != k)

/-- The example model of the spec: intercept 0 and a single coefficient
0.693147 (the natural log of 2 to six decimals) on age_ge70. -/
def exampleSpec : ModelSpec := ⟨0, [("age_ge70", 693147 / 1000000)]⟩

/-- A configuration document whose intercept field holds null instead of a
number: a malformed numeric field that json.loads accepts. -/
def badCfg : JVal :=
  .obj [("outcomes", .obj [("death_in_hospital",
    .obj [("intercept", JVal.null), ("coeffs", .obj [])])])]

/-- A form run whose eligibility answer is the second radio option of
line 118 of src/app.py. -/
def uiNo : UiInputs :=
  ⟨"No / Unsure", "Female", 65, "Emergency", "June", false, false, false,
   false, false, false, false⟩

/-- A submitted form run for a June admission of an eligible patient. -/
def uiJune : UiInputs :=
  ⟨"Yes", "Female", 65, "Emergency", "June", false, false, false,
   false, false, false, true⟩

example : (parseFloat "12.5").isSome = true := by decide
example : (parseFloat " -3e2 ").isSome = true := by decide
example : parseFloat "abc" = none := by decide
example : pyFloat (JVal.str "abc") = .error .valueError := by decide
example : pyFloat JVal.null = .error .typeError := by rfl
example : predictEta (tableToJVal [("o", ⟨1, [("f", 2)]⟩)]) "o" (fvToJVal [("f", 3)]) =
    .ok 7 := by
  simp [predictEta, jGet, jFields, sumTerms, termOf, pyFloat, tableToJVal,
    ModelSpec.toJVal, fvToJVal, List.lookup, bind, Except.bind, pure, Except.pure]
  norm_num
example : predictEta (tableToJVal [("o", ⟨1, []⟩)]) "p" [] = .error (.keyError "p") := by
  simp [predictEta, jGet, jFields, sumTerms, termOf, pyFloat, tableToJVal,
    ModelSpec.toJVal, fvToJVal, List.lookup, bind, Except.bind, pure, Except.pure]
example : predictExp (tableToJVal [("o", ⟨-1000, []⟩)]) "o" [] =
    .error .overflowError := by
  simp [predictExp, predictEta, jGet, jFields, sumTerms, termOf, pyFloat, tableToJVal,
    ModelSpec.toJVal, fvToJVal, List.lookup, bind, Except.bind, pure, Except.pure,
    expMaxArg]
  norm_num

theorem exceptBind_ok {ε α β : Type} (a : α) (f : α → Except ε β) :
    (Except.ok a : Except ε α) >>= f = f a := rfl

theorem exceptBind_error {ε α β : Type} (e : ε) (f : α → Except ε β) :
    (Except.error e : Except ε α) >>= f = .error e := rfl

theorem lookup_map_value {α β : Type} (f : α → β) (k : String) :
    ∀ l : List (String × α),
      (l.map (fun kv => (kv.1, f kv.2))).lookup k = (l.lookup k).map f := by
  intro l
  induction l with
  | nil => rfl
  | cons hd tl ih =>
    simp only [List.map, List.lookup]
    cases h : k == hd.1 <;> simp [ih]

theorem pyFloat_lookup_num (c : List (String × ℚ)) (k : String) :
    pyFloat (((c.map (fun kv => (kv.1, JVal.num kv.2))).lookup k).getD (JVal.num 0)) =
      .ok ((c.lookup k).getD 0) := by
  rw [lookup_map_value]
  cases c.lookup k <;> rfl

theorem termOf_fv (coeffs : List (String × ℚ)) (X : FeatureVector) (k : String) :
    termOf (coeffs.map (fun kv => (kv.1, JVal.num kv.2))) (fvToJVal X) k =
      .ok (((coeffs.lookup k).getD 0) * ((X.lookup k).getD 0)) := by
  have hx : pyFloat (((fvToJVal X).lookup k).getD (JVal.num 0)) =
      .ok ((X.lookup k).getD 0) := pyFloat_lookup_num X k
  simp only [termOf, pyFloat_lookup_num coeffs k, hx, exceptBind_ok]
  rfl

theorem sumTerms_fv (coeffs : List (String × ℚ)) (X : FeatureVector) :
    ∀ ks : List String,
      sumTerms (coeffs.map (fun kv => (kv.1, JVal.num kv.2))) (fvToJVal X) ks =
        .ok ((ks.map (fun k => ((coeffs.lookup k).getD 0) * ((X.lookup k).getD 0))).sum) := by
  intro ks
  induction ks with
  | nil => rfl
  | cons k ks ih =>
    simp only [sumTerms, termOf_fv, exceptBind_ok, ih]
    simp [pure, Except.pure]

theorem predictEta_table (t : CoefficientTable) (o : String) (X : FeatureVector) :
    predictEta (tableToJVal t) o (fvToJVal X) =
      match t.lookup o with
      | none => .error (.keyError o)
      | some spec => .ok (etaOf spec X) := by
  have h1 : jGet (tableToJVal t) "outcomes" =
      .ok (.obj (t.map (fun kv => (kv.1, kv.2.toJVal)))) := rfl
  have h2 : (t.map (fun kv => (kv.1, kv.2.toJVal))).lookup o =
      (t.lookup o).map ModelSpec.toJVal := lookup_map_value _ o t
  cases hlo : t.lookup o with
  | none =>
    have h3 : jGet (.obj (t.map (fun kv => (kv.1, kv.2.toJVal)))) o =
        .error (.keyError o) := by
      simp [jGet, h2, hlo]
    simp only [predictEta, h1, exceptBind_ok, h3, exceptBind_error]
  | some spec =>
    have h3 : jGet (.obj (t.map (fun kv => (kv.1, kv.2.toJVal)))) o = .ok spec.toJVal := by
      simp [jGet, h2, hlo]
    have h4 : jGet spec.toJVal "intercept" = .ok (.num spec.intercept) := rfl
    have h4b : pyFloat (.num spec.intercept) = .ok spec.intercept := rfl
    have h5 : jGet spec.toJVal "coeffs" =
        .ok (.obj (spec.coeffs.map (fun kv => (kv.1, JVal.num kv.2)))) := rfl
    have h6 : jFields (.obj (spec.coeffs.map (fun kv => (kv.1, JVal.num kv.2)))) =
        .ok (spec.coeffs.map (fun kv => (kv.1, JVal.num kv.2))) := rfl
    have h7 : (spec.coeffs.map (fun kv => (kv.1, JVal.num kv.2))).map Prod.fst =
        spec.coeffs.map Prod.fst := by simp
    simp only [predictEta, h1, exceptBind_ok, h3, h4, h4b, h5, h6, h7,
      sumTerms_fv, etaOf, List.map_map]
    rfl

theorem predictEta_table_found {t : CoefficientTable} {o : String} {spec : ModelSpec}
    (ho : t.lookup o = some spec) (X : FeatureVector) :
    predictEta (tableToJVal t) o (fvToJVal X) = .ok (etaOf spec X) := by
  have h := predictEta_table t o X
  rw [ho] at h
  exact h

theorem setWeight_keys (c : List (String × ℚ)) (k : String) (w : ℚ) :
    (setWeight c k w).map Prod.fst = c.map Prod.fst := by
  simp only [setWeight, List.map_map]
  refine List.map_congr_left ?_
  intro kv _
  by_cases h : kv.1 = k <;> simp [h]

theorem lookup_eq_of_mem_nodup :
    ∀ {c : List (String × ℚ)}, (c.map Prod.fst).Nodup →
      ∀ {kv : String × ℚ}, kv ∈ c → c.lookup kv.1 = some kv.2 := by
  intro c
  induction c with
  | nil => intro _ kv hm; cases hm
  | cons hd tl ih =>
    intro hnd kv hm
    simp only [List.map, List.nodup_cons] at hnd
    rcases List.mem_cons.mp hm with he | ht
    · subst he
      simp [List.lookup]
    · have hne : kv.1 ≠ hd.1 := by
        intro hcontra
        exact hnd.1 (hcontra ▸ List.mem_map_of_mem Prod.fst ht)
      simp only [List.lookup, show (kv.1 == hd.1) = false from beq_eq_false_iff_ne.mpr hne]
      exact ih hnd.2 ht

theorem map_lookup_self {c : List (String × ℚ)} (h : (c.map Prod.fst).Nodup)
    (g : String → ℚ) :
    c.map (fun kv => ((c.lookup kv.1).getD 0) * g kv.1) =
      c.map (fun kv => kv.2 * g kv.1) := by
  refine List.map_congr_left ?_
  intro kv hm
  rw [lookup_eq_of_mem_nodup h hm]
  rfl

theorem setWeight_of_not_mem {c : List (String × ℚ)} {k : String} (w : ℚ)
    (h : k ∉ c.map Prod.fst) : setWeight c k w = c := by
  unfold setWeight
  have : ∀ kv ∈ c, (if kv.1 = k then (k, w) else kv) = kv := by
    intro kv hm
    have : kv.1 ≠ k := fun hc => h (hc ▸ List.mem_map_of_mem Prod.fst hm)
    simp [this]
  simp [List.map_congr_left this]

theorem dropWeight_of_not_mem {c : List (String × ℚ)} {k : String}
    (h : k ∉ c.map Prod.fst) : dropWeight c k = c := by
  unfold dropWeight
  rw [List.filter_eq_self]
  intro kv hm
  have : kv.1 ≠ k := fun hc => h (hc ▸ List.mem_map_of_mem Prod.fst hm)
  simpa using this

theorem sum_setWeight (g : String → ℚ) (k : String) (w : ℚ) :
    ∀ c : List (String × ℚ), (c.map Prod.fst).Nodup → k ∈ c.map Prod.fst →
      ((setWeight c k w).map (fun kv => kv.2 * g kv.1)).sum =
        ((dropWeight c k).map (fun kv => kv.2 * g kv.1)).sum + w * g k := by
  intro c
  induction c with
  | nil => intro _ hm; cases hm
  | cons hd tl ih =>
    intro hnd hm
    simp only [List.map, List.nodup_cons] at hnd
    by_cases hk : hd.1 = k
    · have hnk : k ∉ tl.map Prod.fst := hk ▸ hnd.1
      have h1 : setWeight (hd :: tl) k w = (k, w) :: tl := by
        simp only [setWeight, List.map, if_pos hk]
        rw [show tl.map (fun kv => if kv.1 = k then (k, w) else kv) = setWeight tl k w from rfl,
          setWeight_of_not_mem w hnk]
      have h2 : dropWeight (hd :: tl) k = tl := by
        simp only [dropWeight, List.filter]
        rw [show (hd.1 != k) = false by simp [hk]]
        rw [show tl.filter (fun kv => kv.1 != k) = dropWeight tl k from rfl,
          dropWeight_of_not_mem hnk]
      rw [h1, h2]
      simp [add_comm]
    · have hmk : k ∈ tl.map Prod.fst := by
        rcases List.mem_cons.mp hm with he | ht
        · exact absurd he.symm hk
        · exact ht
      have h1 : setWeight (hd :: tl) k w = hd :: setWeight tl k w := by
        simp only [setWeight, List.map, if_neg hk]
      have h2 : dropWeight (hd :: tl) k = hd :: dropWeight tl k := by
        simp only [dropWeight, List.filter]
        rw [show (hd.1 != k) = true by simp [hk]]
      rw [h1, h2]
      simp only [List.map, List.sum_cons, ih hnd.2 hmk]
      ring

theorem sigmoid_pos (x : ℝ) : 0 < sigmoid x := by
  unfold sigmoid
  positivity

theorem sigmoid_lt_one (x : ℝ) : sigmoid x < 1 := by
  unfold sigmoid
  rw [div_lt_one (by positivity)]
  linarith [Real.exp_pos (-x)]

theorem sigmoid_lt_sigmoid {x y : ℝ} (h : x < y) : sigmoid x < sigmoid y := by
  unfold sigmoid
  have he : Real.exp (-y) < Real.exp (-x) := Real.exp_lt_exp.mpr (neg_lt_neg h)
  have := one_div_lt_one_div_of_lt (by positivity : (0 : ℝ) < 1 + Real.exp (-y))
    (by linarith : 1 + Real.exp (-y) < 1 + Real.exp (-x))
  linarith

theorem sigmoid_zero : sigmoid 0 = 1 / 2 := by
  unfold sigmoid
  rw [neg_zero, Real.exp_zero]
  norm_num

theorem dropWeight_keys_nodup {c : List (String × ℚ)} (h : (c.map Prod.fst).Nodup)
    (k : String) : ((dropWeight c k).map Prod.fst).Nodup :=
  ((List.filter_sublist c).map Prod.fst).nodup h

theorem etaOf_setWeight {spec : ModelSpec} {k : String} (w : ℚ) (X : FeatureVector)
    (hnd : (spec.coeffs.map Prod.fst).Nodup) (hk : k ∈ spec.coeffs.map Prod.fst) :
    etaOf ⟨spec.intercept, setWeight spec.coeffs k w⟩ X =
      etaOf ⟨spec.intercept, dropWeight spec.coeffs k⟩ X + w * ((X.lookup k).getD 0) := by
  have hnd2 : ((setWeight spec.coeffs k w).map Prod.fst).Nodup := by
    rw [setWeight_keys]; exact hnd
  have hnd3 : ((dropWeight spec.coeffs k).map Prod.fst).Nodup := dropWeight_keys_nodup hnd k
  calc etaOf ⟨spec.intercept, setWeight spec.coeffs k w⟩ X
      = spec.intercept + ((setWeight spec.coeffs k w).map
          (fun kv => kv.2 * ((X.lookup kv.1).getD 0))).sum := by
        unfold etaOf
        rw [map_lookup_self hnd2 (fun s => (X.lookup s).getD 0)]
    _ = spec.intercept + (((dropWeight spec.coeffs k).map
          (fun kv => kv.2 * ((X.lookup kv.1).getD 0))).sum + w * ((X.lookup k).getD 0)) := by
        rw [sum_setWeight (fun s => (X.lookup s).getD 0) k w spec.coeffs hnd hk]
    _ = etaOf ⟨spec.intercept, dropWeight spec.coeffs k⟩ X + w * ((X.lookup k).getD 0) := by
        unfold etaOf
        rw [map_lookup_self hnd3 (fun s => (X.lookup s).getD 0)]
        ring

theorem etaOf_nil (spec : ModelSpec) : etaOf spec [] = spec.intercept := by
  unfold etaOf
  have hz : (spec.coeffs.map (fun kv =>
      ((spec.coeffs.lookup kv.1).getD 0) * ((([] : FeatureVector).lookup kv.1).getD 0))).sum
      = 0 := by
    apply List.sum_eq_zero
    intro x hx
    rcases List.mem_map.mp hx with ⟨kv, _, rfl⟩
    simp [List.lookup]
  rw [hz, add_zero]

theorem sumTermsImp_fst (coeffs : List (String × JVal)) :
    ∀ (ks : List String) (s : Store), (sumTermsImp coeffs s ks).1 = s := by
  intro ks
  induction ks with
  | nil => intro s; rfl
  | cons k ks ih =>
    intro s
    simp only [sumTermsImp, getXItem]
    cases pyFloat ((coeffs.lookup k).getD (JVal.num 0)) with
    | error e => rfl
    | ok w =>
      cases pyFloat ((s.X.lookup k).getD (JVal.num 0)) with
      | error e => rfl
      | ok x =>
        rcases hp : sumTermsImp coeffs s ks with ⟨s2, r⟩
        have hs2 : s2 = s := by
          have h := ih s
          rw [hp] at h
          exact h
        cases r <;> simp [hp, hs2]

theorem sigmoid_ln2_bound : |sigmoid ((693147 : ℝ) / 1000000) - 0.6667| < 1 / 10000 := by
  have hd1 : Real.log 2 - (693147 : ℝ) / 1000000 > 1 / 10 ^ 7 := by
    have h := Real.log_two_gt_d9
    norm_num at h ⊢
    linarith
  have hd2 : Real.log 2 - (693147 : ℝ) / 1000000 < 2 / 10 ^ 7 := by
    have h := Real.log_two_lt_d9
    norm_num at h ⊢
    linarith
  set a : ℝ := (693147 : ℝ) / 1000000 with ha
  set d : ℝ := Real.log 2 - a with hdd
  have hd0 : 0 < d := lt_trans (by norm_num) hd1
  have hexp : Real.exp (-a) = Real.exp d / 2 := by
    have hne : -a = d - Real.log 2 := by rw [hdd]; ring
    rw [hne, Real.exp_sub, Real.exp_log (by norm_num : (0 : ℝ) < 2)]
  set E : ℝ := Real.exp d with hE
  have hEpos : 0 < E := Real.exp_pos d
  have hE1 : 1 < E := by
    have h := Real.add_one_le_exp d
    rw [← hE] at h
    linarith
  have hEub : E * (1 - d) ≤ 1 := by
    have h1 : -d + 1 ≤ Real.exp (-d) := Real.add_one_le_exp (-d)
    have h3 : E * Real.exp (-d) = 1 := by
      rw [hE, ← Real.exp_add]
      simp
    have h4 : E * (1 - d) ≤ E * Real.exp (-d) := by
      apply mul_le_mul_of_nonneg_left _ (le_of_lt hEpos)
      linarith
    linarith
  have hEd : E * d < E * (2 / 10 ^ 7) := by
    exact mul_lt_mul_of_pos_left hd2 hEpos
  have hE2 : E < 10003 / 10000 := by
    nlinarith
  have hs : sigmoid a = 1 / (1 + E / 2) := by
    rw [sigmoid, hexp]
  have hpos : 0 < 1 + E / 2 := by linarith
  have hprod : sigmoid a * (1 + E / 2) = 1 := by
    rw [hs]
    field_simp
  have hspos : 0 < sigmoid a := sigmoid_pos a
  rw [abs_lt]
  constructor
  · nlinarith [mul_lt_mul_of_pos_left hE2 hspos]
  · nlinarith [mul_lt_mul_of_pos_left hE1 hspos]

theorem sigmoid_le_sigmoid {x y : ℝ} (h : x ≤ y) : sigmoid x ≤ sigmoid y := by
  rcases lt_or_eq_of_le h with hlt | he
  · exact le_of_lt (sigmoid_lt_sigmoid hlt)
  · rw [he]

theorem predict_found {t : CoefficientTable} {o : String} {spec : ModelSpec}
    (ho : t.lookup o = some spec) (X : FeatureVector)
    (hof : -(etaOf spec X) ≤ expMaxArg) :
    predict (tableToJVal t) o (fvToJVal X) = .ok (sigmoid ((etaOf spec X : ℚ) : ℝ)) := by
  have heta : predictEta (tableToJVal t) o (fvToJVal X) = .ok (etaOf spec X) :=
    predictEta_table_found ho X
  have hpe : predictExp (tableToJVal t) o (fvToJVal X) = .ok (etaOf spec X) := by
    unfold predictExp
    rw [heta, exceptBind_ok, if_neg (not_lt.mpr hof)]
    rfl
  unfold predict
  rw [hpe]
  rfl

theorem predict_overflow_found {t : CoefficientTable} {o : String} {spec : ModelSpec}
    (ho : t.lookup o = some spec) (X : FeatureVector)
    (hof : expMaxArg < -(etaOf spec X)) :
    predict (tableToJVal t) o (fvToJVal X) = .error .overflowError := by
  have heta : predictEta (tableToJVal t) o (fvToJVal X) = .ok (etaOf spec X) :=
    predictEta_table_found ho X
  have hpe : predictExp (tableToJVal t) o (fvToJVal X) = .error .overflowError := by
    unfold predictExp
    rw [heta, exceptBind_ok, if_pos hof]
  unfold predict
  rw [hpe]
  rfl

/-- Claim C1: for every coefficient table, known outcome and feature mapping
X, predict computes the linear predictor as the intercept of the model plus
the sum over exactly the keys k of the coefficient mapping of that model of
weight at k times X.get(k, 0.0); feature keys of X that the model does not
reference contribute nothing, and model keys absent from X contribute the
weight times 0. -/
theorem claim_C1 (t : CoefficientTable) (o : String) (spec : ModelSpec)
    (X : FeatureVector) (ho : t.lookup o = some spec)
    (hnd : (spec.coeffs.map Prod.fst).Nodup) :
    predictEta (tableToJVal t) o (fvToJVal X) =
      .ok (spec.intercept +
        (spec.coeffs.map (fun kv => kv.2 * ((X.lookup kv.1).getD 0))).sum) ∧
    ∀ X' : FeatureVector,
      (∀ k ∈ spec.coeffs.map Prod.fst, X'.lookup k = X.lookup k) →
      predictEta (tableToJVal t) o (fvToJVal X') =
        predictEta (tableToJVal t) o (fvToJVal X) := by
  constructor
  · rw [predictEta_table_found ho X]
    unfold etaOf
    rw [map_lookup_self hnd (fun s => (X.lookup s).getD 0)]
  · intro X' hX
    rw [predictEta_table_found ho X', predictEta_table_found ho X]
    have he : etaOf spec X' = etaOf spec X := by
      unfold etaOf
      congr 1
      refine congrArg List.sum (List.map_congr_left ?_)
      intro kv hm
      rw [hX kv.1 (List.mem_map_of_mem Prod.fst hm)]
    rw [he]

/-- Witness for claim C1 at a one-outcome table with a single coefficient. -/
theorem claim_C1_witness :
    (([("o", (⟨1, [("f", 2)]⟩ : ModelSpec))] : CoefficientTable).lookup "o" =
      some ⟨1, [("f", 2)]⟩) ∧
    (((⟨1, [("f", 2)]⟩ : ModelSpec).coeffs.map Prod.fst).Nodup) ∧
    (predictEta (tableToJVal [("o", ⟨1, [("f", 2)]⟩)]) "o" (fvToJVal [("f", 3)]) =
      .ok ((⟨1, [("f", 2)]⟩ : ModelSpec).intercept +
        ((⟨1, [("f", 2)]⟩ : ModelSpec).coeffs.map
          (fun kv => kv.2 * ((([("f", (3 : ℚ))] : FeatureVector).lookup kv.1).getD 0))).sum) ∧
     ∀ X' : FeatureVector,
      (∀ k ∈ (⟨1, [("f", 2)]⟩ : ModelSpec).coeffs.map Prod.fst,
        X'.lookup k = ([("f", (3 : ℚ))] : FeatureVector).lookup k) →
      predictEta (tableToJVal [("o", ⟨1, [("f", 2)]⟩)]) "o" (fvToJVal X') =
        predictEta (tableToJVal [("o", ⟨1, [("f", 2)]⟩)]) "o" (fvToJVal [("f", 3)])) :=
  ⟨rfl, by decide, claim_C1 [("o", ⟨1, [("f", 2)]⟩)] "o" ⟨1, [("f", 2)]⟩ [("f", 3)]
    rfl (by decide)⟩

/-- Claim C4: for every table and every outcome that is not a key of the
table, predict fails with the KeyError of the unknown outcome, and no
partial computation happens: neither the eta computation nor the sigmoid
produces any result. -/
theorem claim_C4 (t : CoefficientTable) (o : String) (X : FeatureVector)
    (ho : t.lookup o = none) :
    predictEta (tableToJVal t) o (fvToJVal X) = .error (.keyError o) ∧
    predict (tableToJVal t) o (fvToJVal X) = .error (.keyError o) := by
  have h := predictEta_table t o X
  rw [ho] at h
  refine ⟨h, ?_⟩
  unfold predict predictExp
  rw [h, exceptBind_error]
  rfl

/-- Witness for claim C4 at a table without the requested outcome. -/
theorem claim_C4_witness :
    (([("a", (⟨0, []⟩ : ModelSpec))] : CoefficientTable).lookup "b" = none) ∧
    (predictEta (tableToJVal [("a", ⟨0, []⟩)]) "b" (fvToJVal []) =
        .error (.keyError "b") ∧
      predict (tableToJVal [("a", ⟨0, []⟩)]) "b" (fvToJVal []) =
        .error (.keyError "b")) :=
  ⟨rfl, claim_C4 [("a", ⟨0, []⟩)] "b" [] rfl⟩

/-- Claim C2, counterexample to the claim as stated: the table storing
intercept -1000 for outcome o gives the finite linear predictor -1000 on the
empty feature mapping, yet predict raises an OverflowError from math.exp
instead of returning a value strictly between 0 and 1. -/
theorem claim_C2_counterexample :
    predictEta (tableToJVal [("o", ⟨-1000, []⟩)]) "o" (fvToJVal []) = .ok (-1000) ∧
    predict (tableToJVal [("o", ⟨-1000, []⟩)]) "o" (fvToJVal []) =
      .error .overflowError := by
  have h0 : etaOf (⟨-1000, []⟩ : ModelSpec) [] = -1000 := by rw [etaOf_nil]
  have h1 : predictEta (tableToJVal [("o", ⟨-1000, []⟩)]) "o" (fvToJVal []) =
      .ok (-1000) := by
    rw [@predictEta_table_found [("o", ⟨-1000, []⟩)] "o" ⟨-1000, []⟩ rfl [], h0]
  refine ⟨h1, ?_⟩
  have hpe : predictExp (tableToJVal [("o", ⟨-1000, []⟩)]) "o" (fvToJVal []) =
      .error .overflowError := by
    unfold predictExp
    rw [h1, exceptBind_ok, if_pos (by norm_num [expMaxArg] : expMaxArg < -(-1000 : ℚ))]
  unfold predict
  rw [hpe]
  rfl

/-- Claim C2 as amended: for every known outcome and every feature mapping
whose linear predictor eta keeps the argument of math.exp inside the double
range (-eta at most expMaxArg), predict returns the sigmoid of eta, a value
strictly greater than 0 and at most 1. The bound is not strict: in double
arithmetic 1.0 + math.exp(-eta) rounds to exactly 1.0 once eta exceeds about
36.74 (53 times the log of 2), so the program returns exactly 1.0 there. -/
theorem claim_C2_amended (t : CoefficientTable) (o : String) (spec : ModelSpec)
    (X : FeatureVector) (ho : t.lookup o = some spec)
    (hof : -(etaOf spec X) ≤ expMaxArg) :
    predict (tableToJVal t) o (fvToJVal X) = .ok (sigmoid ((etaOf spec X : ℚ) : ℝ)) ∧
    0 < sigmoid ((etaOf spec X : ℚ) : ℝ) ∧ sigmoid ((etaOf spec X : ℚ) : ℝ) ≤ 1 :=
  ⟨predict_found ho X hof, sigmoid_pos _, le_of_lt (sigmoid_lt_one _)⟩

/-- Witness for the amended claim C2 at a zero-intercept model. -/
theorem claim_C2_amended_witness :
    (([("o", (⟨0, []⟩ : ModelSpec))] : CoefficientTable).lookup "o" = some ⟨0, []⟩) ∧
    (-(etaOf ⟨0, []⟩ []) ≤ expMaxArg) ∧
    (predict (tableToJVal [("o", ⟨0, []⟩)]) "o" (fvToJVal []) =
        .ok (sigmoid ((etaOf ⟨0, []⟩ [] : ℚ) : ℝ)) ∧
      0 < sigmoid ((etaOf ⟨0, []⟩ [] : ℚ) : ℝ) ∧
      sigmoid ((etaOf ⟨0, []⟩ [] : ℚ) : ℝ) ≤ 1) :=
  ⟨rfl, by rw [etaOf_nil]; norm_num [expMaxArg],
    claim_C2_amended [("o", ⟨0, []⟩)] "o" ⟨0, []⟩ [] rfl
      (by rw [etaOf_nil]; norm_num [expMaxArg])⟩

/-- Claim C3: the code of predict contains no branch on the sign of eta; it
evaluates math.exp(-eta) unconditionally, so at the finite linear predictor
-800 (intercept -800, empty feature mapping) math.exp overflows the double
range and predict raises an OverflowError, contradicting the claimed guard. -/
theorem claim_C3_eval :
    predictEta (tableToJVal [("death_in_hospital", ⟨-800, []⟩)]) "death_in_hospital"
      (fvToJVal []) = .ok (-800) ∧
    predictExp (tableToJVal [("death_in_hospital", ⟨-800, []⟩)]) "death_in_hospital"
      (fvToJVal []) = .error .overflowError := by
  have h0 : etaOf (⟨-800, []⟩ : ModelSpec) [] = -800 := by rw [etaOf_nil]
  have h1 : predictEta (tableToJVal [("death_in_hospital", ⟨-800, []⟩)])
      "death_in_hospital" (fvToJVal []) = .ok (-800) := by
    rw [@predictEta_table_found [("death_in_hospital", ⟨-800, []⟩)] "death_in_hospital"
      ⟨-800, []⟩ rfl [], h0]
  refine ⟨h1, ?_⟩
  unfold predictExp
  rw [h1, exceptBind_ok, if_pos (by norm_num [expMaxArg] : expMaxArg < -(-800 : ℚ))]

/-- Claim C5: load_cfg accepts the parsed configuration document without
validating its numeric fields, so a null intercept passes the load and the
TypeError only surfaces later, inside predict, when float() is applied to
the intercept. -/
theorem claim_C5_eval :
    load_cfg (.parsed badCfg) = .ok badCfg ∧
    predictEta badCfg "death_in_hospital" [] = .error .typeError := by
  refine ⟨rfl, ?_⟩
  simp [predictEta, badCfg, jGet, jFields, pyFloat, List.lookup, bind, Except.bind]

/-- Claim C6, counterexample to the claim as stated: the outcome
prolonged_los with intercept -900 is known and the empty feature mapping
gives the finite eta -900, yet predict raises an OverflowError from math.exp
instead of returning the sigmoid of the intercept. -/
theorem claim_C6_counterexample :
    predictEta (tableToJVal [("prolonged_los", ⟨-900, []⟩)]) "prolonged_los"
      (fvToJVal []) = .ok (-900) ∧
    predict (tableToJVal [("prolonged_los", ⟨-900, []⟩)]) "prolonged_los"
      (fvToJVal []) = .error .overflowError := by
  have h0 : etaOf (⟨-900, []⟩ : ModelSpec) [] = -900 := by rw [etaOf_nil]
  constructor
  · rw [@predictEta_table_found [("prolonged_los", ⟨-900, []⟩)] "prolonged_los"
      ⟨-900, []⟩ rfl [], h0]
  · apply @predict_overflow_found [("prolonged_los", ⟨-900, []⟩)] "prolonged_los"
      ⟨-900, []⟩ rfl []
    rw [h0]
    norm_num [expMaxArg]

/-- Claim C6 as amended: for every known outcome whose intercept keeps
math.exp inside the double range (-intercept at most expMaxArg), predict on
the empty feature mapping returns the sigmoid of the intercept of that
model; in particular the example model (intercept 0, coefficient 0.693147 on
age_ge70) yields exactly one half with age_ge70 equal to 0 and about 0.6667
with age_ge70 equal to 1. -/
theorem claim_C6_amended (t : CoefficientTable) (o : String) (spec : ModelSpec)
    (ho : t.lookup o = some spec) (hof : -(spec.intercept) ≤ expMaxArg) :
    predict (tableToJVal t) o (fvToJVal []) =
      .ok (sigmoid ((spec.intercept : ℚ) : ℝ)) ∧
    predict (tableToJVal [("o", exampleSpec)]) "o" (fvToJVal [("age_ge70", 0)]) =
      .ok (1 / 2) ∧
    (∃ p : ℝ, predict (tableToJVal [("o", exampleSpec)]) "o"
      (fvToJVal [("age_ge70", 1)]) = .ok p ∧ |p - 0.6667| < 1 / 10000) := by
  refine ⟨?_, ?_, ?_⟩
  · have hof2 : -(etaOf spec []) ≤ expMaxArg := by
      rw [etaOf_nil]
      exact hof
    rw [predict_found ho [] hof2, etaOf_nil]
  · have he : etaOf exampleSpec [("age_ge70", 0)] = 0 := by
      norm_num [etaOf, exampleSpec, List.lookup]
    have hof2 : -(etaOf exampleSpec [("age_ge70", 0)]) ≤ expMaxArg := by
      rw [he]
      norm_num [expMaxArg]
    rw [@predict_found [("o", exampleSpec)] "o" exampleSpec rfl [("age_ge70", 0)] hof2,
      he]
    norm_num [sigmoid_zero]
  · refine ⟨sigmoid ((693147 : ℝ) / 1000000), ?_, sigmoid_ln2_bound⟩
    have he : etaOf exampleSpec [("age_ge70", 1)] = 693147 / 1000000 := by
      norm_num [etaOf, exampleSpec, List.lookup]
    have hof2 : -(etaOf exampleSpec [("age_ge70", 1)]) ≤ expMaxArg := by
      rw [he]
      norm_num [expMaxArg]
    rw [@predict_found [("o", exampleSpec)] "o" exampleSpec rfl [("age_ge70", 1)] hof2,
      he]
    norm_num

/-- Witness for the amended claim C6 at the example table itself. -/
theorem claim_C6_amended_witness :
    (([("o", exampleSpec)] : CoefficientTable).lookup "o" = some exampleSpec) ∧
    (-(exampleSpec.intercept) ≤ expMaxArg) ∧
    (predict (tableToJVal [("o", exampleSpec)]) "o" (fvToJVal []) =
        .ok (sigmoid ((exampleSpec.intercept : ℚ) : ℝ)) ∧
      predict (tableToJVal [("o", exampleSpec)]) "o" (fvToJVal [("age_ge70", 0)]) =
        .ok (1 / 2) ∧
      (∃ p : ℝ, predict (tableToJVal [("o", exampleSpec)]) "o"
        (fvToJVal [("age_ge70", 1)]) = .ok p ∧ |p - 0.6667| < 1 / 10000)) :=
  ⟨rfl, by norm_num [exampleSpec, expMaxArg],
    claim_C6_amended [("o", exampleSpec)] "o" exampleSpec rfl
      (by norm_num [exampleSpec, expMaxArg])⟩

/-- Claim C7, counterexample to the claim as stated: with feature f set
to 1, lowering the weight of f from -800 to -801 does not strictly decrease
the probability returned by predict, because at both weights the finite
linear predictor drives math.exp past the double range and predict raises an
OverflowError: no probability is returned at all. -/
theorem claim_C7_counterexample :
    predict (tableToJVal [("o", ⟨0, setWeight [("f", 5)] "f" (-800)⟩)]) "o"
      (fvToJVal [("f", 1)]) = .error .overflowError ∧
    predict (tableToJVal [("o", ⟨0, setWeight [("f", 5)] "f" (-801)⟩)]) "o"
      (fvToJVal [("f", 1)]) = .error .overflowError := by
  have hsw : ∀ v : ℚ, setWeight [("f", (5 : ℚ))] "f" v = [("f", v)] := by
    intro v
    simp [setWeight]
  constructor
  · apply @predict_overflow_found [("o", ⟨0, setWeight [("f", 5)] "f" (-800)⟩)] "o"
      ⟨0, setWeight [("f", 5)] "f" (-800)⟩ rfl [("f", 1)]
    rw [hsw]
    norm_num [etaOf, List.lookup, expMaxArg]
  · apply @predict_overflow_found [("o", ⟨0, setWeight [("f", 5)] "f" (-801)⟩)] "o"
      ⟨0, setWeight [("f", 5)] "f" (-801)⟩ rfl [("f", 1)]
    rw [hsw]
    norm_num [etaOf, List.lookup, expMaxArg]

/-- Claim C7 as amended: with feature k set to 1 and both weight settings
keeping math.exp inside the double range, predict returns the sigmoid of the
respective linear predictor, the returned probability does not decrease when
only the weight of k is raised and does not increase when it is lowered, and
weight 0 gives the identical linear predictor as omitting the k term. The
monotonicity is not strict: in double arithmetic distinct weights can return
the same value (for example weights 40 and 41 with the feature at 1 both
return exactly 1.0, since exp(-40) and exp(-41) vanish in 1.0 + exp(-eta)),
though the exact-arithmetic sigmoid is strictly monotone. -/
theorem claim_C7_amended (spec : ModelSpec) (k : String) (w w' : ℚ)
    (X : FeatureVector) (t t' : CoefficientTable) (o o' : String)
    (hnd : (spec.coeffs.map Prod.fst).Nodup) (hk : k ∈ spec.coeffs.map Prod.fst)
    (hX : (X.lookup k).getD 0 = 1)
    (ht : t.lookup o = some ⟨spec.intercept, setWeight spec.coeffs k w⟩)
    (ht' : t'.lookup o' = some ⟨spec.intercept, setWeight spec.coeffs k w'⟩)
    (hof : -(etaOf ⟨spec.intercept, setWeight spec.coeffs k w⟩ X) ≤ expMaxArg)
    (hof' : -(etaOf ⟨spec.intercept, setWeight spec.coeffs k w'⟩ X) ≤ expMaxArg) :
    predict (tableToJVal t) o (fvToJVal X) =
      .ok (sigmoid ((etaOf ⟨spec.intercept, setWeight spec.coeffs k w⟩ X : ℚ) : ℝ)) ∧
    predict (tableToJVal t') o' (fvToJVal X) =
      .ok (sigmoid ((etaOf ⟨spec.intercept, setWeight spec.coeffs k w'⟩ X : ℚ) : ℝ)) ∧
    (w ≤ w' →
      sigmoid ((etaOf ⟨spec.intercept, setWeight spec.coeffs k w⟩ X : ℚ) : ℝ) ≤
        sigmoid ((etaOf ⟨spec.intercept, setWeight spec.coeffs k w'⟩ X : ℚ) : ℝ)) ∧
    (w' ≤ w →
      sigmoid ((etaOf ⟨spec.intercept, setWeight spec.coeffs k w'⟩ X : ℚ) : ℝ) ≤
        sigmoid ((etaOf ⟨spec.intercept, setWeight spec.coeffs k w⟩ X : ℚ) : ℝ)) ∧
    etaOf ⟨spec.intercept, setWeight spec.coeffs k 0⟩ X =
      etaOf ⟨spec.intercept, dropWeight spec.coeffs k⟩ X := by
  have h0 : ∀ v : ℚ, etaOf ⟨spec.intercept, setWeight spec.coeffs k v⟩ X =
      etaOf ⟨spec.intercept, dropWeight spec.coeffs k⟩ X + v := by
    intro v
    rw [etaOf_setWeight v X hnd hk, hX, mul_one]
  refine ⟨predict_found ht X hof, predict_found ht' X hof', ?_, ?_, ?_⟩
  · intro hle
    apply sigmoid_le_sigmoid
    rw [h0 w, h0 w']
    exact_mod_cast add_le_add_left hle _
  · intro hle
    apply sigmoid_le_sigmoid
    rw [h0 w, h0 w']
    exact_mod_cast add_le_add_left hle _
  · rw [h0 0, add_zero]

/-- Witness for the amended claim C7 at a single-coefficient model with the
feature set to 1 and weights 1 and 2, each installed in a one-outcome
table. -/
theorem claim_C7_amended_witness :
    ((((⟨0, [("f", 5)]⟩ : ModelSpec)).coeffs.map Prod.fst).Nodup) ∧
    ("f" ∈ ((⟨0, [("f", 5)]⟩ : ModelSpec)).coeffs.map Prod.fst) ∧
    ((([("f", (1 : ℚ))] : FeatureVector).lookup "f").getD 0 = 1) ∧
    (([("o", (⟨0, setWeight [("f", 5)] "f" 1⟩ : ModelSpec))] :
      CoefficientTable).lookup "o" = some ⟨0, setWeight [("f", 5)] "f" 1⟩) ∧
    (([("o2", (⟨0, setWeight [("f", 5)] "f" 2⟩ : ModelSpec))] :
      CoefficientTable).lookup "o2" = some ⟨0, setWeight [("f", 5)] "f" 2⟩) ∧
    (-(etaOf ⟨0, setWeight [("f", 5)] "f" 1⟩ [("f", 1)]) ≤ expMaxArg) ∧
    (-(etaOf ⟨0, setWeight [("f", 5)] "f" 2⟩ [("f", 1)]) ≤ expMaxArg) ∧
    (predict (tableToJVal [("o", ⟨0, setWeight [("f", 5)] "f" 1⟩)]) "o"
        (fvToJVal [("f", 1)]) =
      .ok (sigmoid ((etaOf ⟨0, setWeight [("f", 5)] "f" 1⟩ [("f", 1)] : ℚ) : ℝ)) ∧
    predict (tableToJVal [("o2", ⟨0, setWeight [("f", 5)] "f" 2⟩)]) "o2"
        (fvToJVal [("f", 1)]) =
      .ok (sigmoid ((etaOf ⟨0, setWeight [("f", 5)] "f" 2⟩ [("f", 1)] : ℚ) : ℝ)) ∧
    ((1 : ℚ) ≤ 2 →
      sigmoid ((etaOf ⟨0, setWeight [("f", 5)] "f" 1⟩ [("f", 1)] : ℚ) : ℝ) ≤
        sigmoid ((etaOf ⟨0, setWeight [("f", 5)] "f" 2⟩ [("f", 1)] : ℚ) : ℝ)) ∧
    ((2 : ℚ) ≤ 1 →
      sigmoid ((etaOf ⟨0, setWeight [("f", 5)] "f" 2⟩ [("f", 1)] : ℚ) : ℝ) ≤
        sigmoid ((etaOf ⟨0, setWeight [("f", 5)] "f" 1⟩ [("f", 1)] : ℚ) : ℝ)) ∧
    etaOf ⟨0, setWeight [("f", 5)] "f" 0⟩ [("f", 1)] =
      etaOf ⟨0, dropWeight [("f", 5)] "f"⟩ [("f", 1)]) :=
  ⟨by decide, by decide, by decide, rfl, rfl,
    by norm_num [etaOf, setWeight, List.lookup, expMaxArg],
    by norm_num [etaOf, setWeight, List.lookup, expMaxArg],
    claim_C7_amended ⟨0, [("f", 5)]⟩ "f" 1 2 [("f", 1)]
      [("o", ⟨0, setWeight [("f", 5)] "f" 1⟩)]
      [("o2", ⟨0, setWeight [("f", 5)] "f" 2⟩)] "o" "o2"
      (by decide) (by decide) (by decide) rfl rfl
      (by norm_num [etaOf, setWeight, List.lookup, expMaxArg])
      (by norm_num [etaOf, setWeight, List.lookup, expMaxArg])⟩

/-- Claim C8: whenever the primary-diagnosis answer is not Yes, the form
phase halts at the eligibility gate in a terminal state: no feature vector
is constructed, predict is never invoked and no prediction result is
produced in that run. -/
theorem claim_C8 (cfg : JVal) (inp : UiInputs) (h : inp.primary_ckd ≠ "Yes") :
    runFormPhase cfg inp = .error .ineligible := by
  unfold runFormPhase
  rw [if_pos h]

/-- Witness for claim C8 at the No / Unsure answer. -/
theorem claim_C8_witness :
    (uiNo.primary_ckd ≠ "Yes") ∧
    runFormPhase (tableToJVal []) uiNo = .error .ineligible :=
  ⟨by decide, claim_C8 (tableToJVal []) uiNo (by decide)⟩

/-- Claim C9: the UI encoding sets warm_month to 1 exactly when the calendar
number of the selected admission month lies in 3 through 8 (March through
August), and to 0 otherwise; June (month 6) yields 1 and December (month 12)
yields 0. -/
theorem claim_C9 (inp : UiInputs) (h : inp.month_name ∈ monthNames) :
    ((featuresOf inp).lookup "warm_month" =
      some (if admissionMonthOf inp ∈ ([3, 4, 5, 6, 7, 8] : List ℕ) then 1 else 0)) ∧
    ((featuresOf inp).lookup "warm_month" = some 1 ↔
      admissionMonthOf inp ∈ ([3, 4, 5, 6, 7, 8] : List ℕ)) ∧
    (inp.month_name = "June" → (featuresOf inp).lookup "warm_month" = some 1) ∧
    (inp.month_name = "December" → (featuresOf inp).lookup "warm_month" = some 0) := by
  have h1 : (featuresOf inp).lookup "warm_month" =
      some (if admissionMonthOf inp ∈ ([3, 4, 5, 6, 7, 8] : List ℕ) then 1 else 0) := rfl
  refine ⟨h1, ?_, ?_, ?_⟩
  · rw [h1]
    by_cases hm : admissionMonthOf inp ∈ ([3, 4, 5, 6, 7, 8] : List ℕ)
    · simp [hm]
    · simp [hm]
  · intro h6
    have hm : admissionMonthOf inp ∈ ([3, 4, 5, 6, 7, 8] : List ℕ) := by
      unfold admissionMonthOf
      rw [h6]
      decide
    rw [h1, if_pos hm]
  · intro h12
    have hm : admissionMonthOf inp ∉ ([3, 4, 5, 6, 7, 8] : List ℕ) := by
      unfold admissionMonthOf
      rw [h12]
      decide
    rw [h1, if_neg hm]

/-- Witness for claim C9 at the June form run. -/
theorem claim_C9_witness :
    (uiJune.month_name ∈ monthNames) ∧
    (((featuresOf uiJune).lookup "warm_month" =
      some (if admissionMonthOf uiJune ∈ ([3, 4, 5, 6, 7, 8] : List ℕ) then 1 else 0)) ∧
    ((featuresOf uiJune).lookup "warm_month" = some 1 ↔
      admissionMonthOf uiJune ∈ ([3, 4, 5, 6, 7, 8] : List ℕ)) ∧
    (uiJune.month_name = "June" → (featuresOf uiJune).lookup "warm_month" = some 1) ∧
    (uiJune.month_name = "December" → (featuresOf uiJune).lookup "warm_month" = some 0)) :=
  ⟨by decide, claim_C9 uiJune (by decide)⟩

/-- Claim C10: predict mutates nothing: with every dict access threaded
through the store holding the cfg dict and the feature dict X, the store
after a call of predict is the store it started from, on the success path
and on every error path (unknown outcome included). -/
theorem claim_C10 (s : Store) (o : String) : (predictImp s o).1 = s := by
  rcases h1 : jGet s.cfg "outcomes" with e1 | outcomes
  · simp [predictImp, h1]
  rcases h2 : jGet outcomes o with e2 | spec
  · simp [predictImp, h1, h2]
  rcases h3 : jGet spec "intercept" with e3 | b0j
  · simp [predictImp, h1, h2, h3]
  rcases h4 : pyFloat b0j with e4 | b0
  · simp [predictImp, h1, h2, h3, h4]
  rcases h5 : jGet spec "coeffs" with e5 | coeffsj
  · simp [predictImp, h1, h2, h3, h4, h5]
  rcases h6 : jFields coeffsj with e6 | coeffs
  · simp [predictImp, h1, h2, h3, h4, h5, h6]
  rcases hp : sumTermsImp coeffs s (coeffs.map Prod.fst) with ⟨s1, r⟩
  have hs1 : s1 = s := by
    have hh := sumTermsImp_fst coeffs (coeffs.map Prod.fst) s
    rw [hp] at hh
    exact hh
  rcases r with e7 | total
  · simp [predictImp, h1, h2, h3, h4, h5, h6, hp, hs1]
  · simp [predictImp, h1, h2, h3, h4, h5, h6, hp, hs1, apply_ite]
